import Mathlib

/-!
Shallow embedding of the request-orchestration core of the build-server
proxy (`RequestHandler`, `ConfigLoader`, routes), together with theorems
settling the specification claims about account rotation, retry handling,
streaming-mode resolution, SSE re-framing and the OpenAI-to-native request
translation.  Each definition is translated from the JavaScript source;
external collaborators (the browser session manager) are represented by
their interface contract only.
-/

namespace BuildServer

/-! ## Rotation state and configuration -/

/-- Configuration fields consumed by the failure/rotation logic
(loaded by `ConfigLoader.load`; read in `_handleRequestFailureAndSwitch`
and the retry loops of `RequestHandler`). -/
structure Config where
  failureThreshold : Int
  immediateSwitchStatusCodes : List Int
  maxRetries : Nat
  switchOnUses : Int
deriving DecidableEq, Repr

/-- Mutable counters and lock of `RequestHandler` relevant to rotation
(`currentAuthIndex` delegates to the browser manager; `failureCount`,
`usageCount`, `isAuthSwitching` live on the handler). -/
structure HandlerState where
  currentAuthIndex : Nat
  failureCount : Nat
  usageCount : Nat
  isAuthSwitching : Bool
deriving DecidableEq, Repr

/-- Model of `_getNextAuthIndex` (part_001 lines 34-49): with the list of
usable account indices, return `null` when it is empty; when the current
index is absent from the list (JS `indexOf` returns `-1`) return the first
usable index; otherwise the cyclic successor of the current index. -/
def getNextAuthIndex (available : List Nat) (currentAuthIndex : Nat) : Option Nat :=
  if available.length = 0 then none
  else
    match available.indexOf? currentAuthIndex with
    | none => available[0]?
    | some i => available[(i + 1) % available.length]?

/-- Result of `_switchToNextAuth` as observed by its caller: a returned
object, or one of the two errors it can throw.  `success` carries the
returned `newIndex`; `fallbackSuccess` is the object with
`success:false, fallback:true`; `skippedBusy` is the non-throwing
`Switch already in progress` return; `onlyOneAccountError` is the thrown
`Only one account is available, cannot switch.` error;
`fallbackFailedError` is the rethrown fallback error. -/
inductive SwitchOutcome
  | success (newIndex : Nat)
  | fallbackSuccess (newIndex : Nat)
  | skippedBusy
  | onlyOneAccountError
  | fallbackFailedError
deriving DecidableEq, Repr

/-- Model of `_switchToNextAuth` (part_001 lines 51-113).  The browser
session manager is an external collaborator (spec section 4.3), so its two
calls are represented by the booleans `switchOk` (does
`browserManager.switchAccount(next)` succeed) and `fallbackOk` (does
`browserManager.launchOrSwitchContext(previous)` succeed), with the
interface contract that a successful call leaves the manager's
`currentAuthIndex` equal to its argument.  The `isAuthSwitching` lock is
taken and released inside the call, so it is unchanged in the final
state. -/
def switchToNextAuth (available : List Nat) (st : HandlerState)
    (switchOk fallbackOk : Bool) : SwitchOutcome × HandlerState :=
  if available.length ≤ 1 then (.onlyOneAccountError, st)
  else if st.isAuthSwitching then (.skippedBusy, st)
  else
    let previous := st.currentAuthIndex
    match getNextAuthIndex available st.currentAuthIndex, switchOk with
    | some next, true =>
        (.success next,
         { st with currentAuthIndex := next, failureCount := 0, usageCount := 0 })
    | _, _ =>
        if fallbackOk then
          (.fallbackSuccess previous,
           { st with currentAuthIndex := previous, failureCount := 0, usageCount := 0 })
        else
          (.fallbackFailedError, st)

/-- The `isImmediateSwitch` test of `_handleRequestFailureAndSwitch`
(part_001 line 159): the failed response status is a member of
`config.immediateSwitchStatusCodes`.  A missing status (JS `undefined`)
is never a member. -/
def statusInImmediate (cfg : Config) (status : Option Int) : Bool :=
  match status with
  | some s => cfg.immediateSwitchStatusCodes.contains s
  | none => false

/-- The failure-count increment at the top of
`_handleRequestFailureAndSwitch` (part_001 lines 152-157): the counter is
incremented only while `failureThreshold > 0`. -/
def incrementFailureCount (cfg : Config) (st : HandlerState) : HandlerState :=
  if 0 < cfg.failureThreshold then { st with failureCount := st.failureCount + 1 }
  else st

/-- The combined switch condition of `_handleRequestFailureAndSwitch`
(part_001 lines 159-167): immediate-switch status, or threshold enabled
and the incremented counter at or above it. -/
def rotationTriggered (cfg : Config) (st : HandlerState) (status : Option Int) : Bool :=
  statusInImmediate cfg status ||
    (decide (0 < cfg.failureThreshold) &&
     decide (cfg.failureThreshold ≤ ((incrementFailureCount cfg st).failureCount : Int)))

/-- Client-visible notice chosen by `_handleRequestFailureAndSwitch`
after the switch attempt (the `userMessage` / `successMessage` sent with
`_sendErrorChunkToClient` when a response object is given). -/
inductive SwitchNotice
  | switchOrFallbackDone
  | onlyOneAccount
  | fallbackFailedFatal
deriving DecidableEq, Repr

/-- Final observable outcome of `_handleRequestFailureAndSwitch`. -/
structure FailureHandling where
  finalState : HandlerState
  rotationAttempted : Bool
  notice : Option SwitchNotice
deriving DecidableEq, Repr

/-- Model of `_handleRequestFailureAndSwitch` (part_001 lines 150-207).
The function is invoked by the callers only for non-aborted failures.  All
errors thrown by `_switchToNextAuth` are caught inside it (the catch block
at lines 185-203), so the model is a total function: the
`onlyOneAccountError` throw resets `failureCount` to 0, the
`fallbackFailedError` throw leaves the counters as they were, and neither
escapes to the caller. -/
def handleRequestFailureAndSwitch (cfg : Config) (available : List Nat)
    (st : HandlerState) (status : Option Int) (switchOk fallbackOk : Bool) :
    FailureHandling :=
  let st1 := incrementFailureCount cfg st
  if rotationTriggered cfg st status then
    match switchToNextAuth available st1 switchOk fallbackOk with
    | (.success _, st2) =>
        { finalState := st2, rotationAttempted := true,
          notice := some .switchOrFallbackDone }
    | (.fallbackSuccess _, st2) =>
        { finalState := st2, rotationAttempted := true,
          notice := some .switchOrFallbackDone }
    | (.skippedBusy, st2) =>
        { finalState := st2, rotationAttempted := true,
          notice := some .switchOrFallbackDone }
    | (.onlyOneAccountError, st2) =>
        { finalState := { st2 with failureCount := 0 }, rotationAttempted := true,
          notice := some .onlyOneAccount }
    | (.fallbackFailedError, st2) =>
        { finalState := st2, rotationAttempted := true,
          notice := some .fallbackFailedFatal }
  else
    { finalState := st1, rotationAttempted := false, notice := none }

/-! ## Claims about rotation-target computation and rotation (C10, C3, C2, C6) -/

/-- Claim C10: if the current account index is not present in the list of
usable account indices, computing the next rotation target does not fail:
`_getNextAuthIndex` returns the first index of the usable list whenever
that list is non-empty, and `null` only when the list is empty. -/
theorem nextAuthIndex_current_missing (available : List Nat) (current : Nat)
    (hmem : current ∉ available) :
    getNextAuthIndex available current = available.head? ∧
      (getNextAuthIndex available current = none ↔ available = []) := by
  have hidx : available.indexOf? current = none := by
    rw [List.indexOf?_eq_none_iff]
    intro x hx hbeq
    have hxeq : x = current := by simpa [beq_iff_eq] using hbeq
    exact hmem (hxeq ▸ hx)
  constructor
  · cases available with
    | nil => simp [getNextAuthIndex]
    | cons a rest => simp [getNextAuthIndex, hidx]
  · cases available with
    | nil => simp [getNextAuthIndex]
    | cons a rest => simp [getNextAuthIndex, hidx]

/-- Witness for `nextAuthIndex_current_missing` at `available = [3, 5]`,
`current = 9`. -/
theorem nextAuthIndex_current_missing_witness :
    (9 : Nat) ∉ [3, 5] ∧
      (getNextAuthIndex [3, 5] 9 = ([3, 5] : List Nat).head? ∧
        (getNextAuthIndex [3, 5] 9 = none ↔ ([3, 5] : List Nat) = [])) :=
  ⟨by decide, nextAuthIndex_current_missing [3, 5] 9 (by decide)⟩

/-- Claim C3: when the switch to the next account fails but the fallback
move to the previous account succeeds, `_switchToNextAuth` reports the
`success:false, fallback:true` object carrying the original index, leaves
`currentAuthIndex` equal to the original pre-rotation index, and resets
both `failureCount` and `usageCount` to 0. -/
theorem switchToNextAuth_fallback (available : List Nat) (st : HandlerState)
    (h2 : 2 ≤ available.length) (hlock : st.isAuthSwitching = false) :
    switchToNextAuth available st false true =
      (.fallbackSuccess st.currentAuthIndex,
       { st with failureCount := 0, usageCount := 0 }) := by
  unfold switchToNextAuth
  rw [if_neg (by omega), if_neg (by simp [hlock])]
  rcases h : getNextAuthIndex available st.currentAuthIndex with _ | next <;> simp

/-- Witness for `switchToNextAuth_fallback` at `available = [0, 1]` and the
state with index 0, failure count 2, usage count 5, lock free. -/
theorem switchToNextAuth_fallback_witness :
    2 ≤ ([0, 1] : List Nat).length ∧
      switchToNextAuth [0, 1] ⟨0, 2, 5, false⟩ false true =
        (.fallbackSuccess 0, ⟨0, 0, 0, false⟩) :=
  ⟨by decide, switchToNextAuth_fallback [0, 1] ⟨0, 2, 5, false⟩ (by decide) rfl⟩

/-- Claim C2: a rotation attempt is initiated from a request failure
exactly when the failed status is in the immediate-switch set or the
incremented failure counter has reached a positive `failureThreshold`;
in particular any status in the immediate-switch set triggers rotation
regardless of the counter. -/
theorem rotation_entry_condition (cfg : Config) (available : List Nat)
    (st : HandlerState) (status : Option Int) (switchOk fallbackOk : Bool) :
    ((handleRequestFailureAndSwitch cfg available st status switchOk fallbackOk).rotationAttempted
        = true ↔
      (statusInImmediate cfg status = true ∨
        (0 < cfg.failureThreshold ∧
          cfg.failureThreshold ≤ ((incrementFailureCount cfg st).failureCount : Int)))) ∧
      (statusInImmediate cfg status = true →
        (handleRequestFailureAndSwitch cfg available st status switchOk fallbackOk).rotationAttempted
          = true) := by
  have hiff :
      (handleRequestFailureAndSwitch cfg available st status switchOk fallbackOk).rotationAttempted
        = rotationTriggered cfg st status := by
    unfold handleRequestFailureAndSwitch
    by_cases h : rotationTriggered cfg st status = true
    · rw [if_pos h, h]
      rcases hsw : switchToNextAuth available (incrementFailureCount cfg st) switchOk fallbackOk
        with ⟨out, st2⟩
      cases out <;> simp
    · rw [if_neg h]
      simpa using (Bool.not_eq_true _).mp h
  constructor
  · rw [hiff]
    unfold rotationTriggered
    constructor
    · intro h
      rcases Bool.or_eq_true_iff.mp h with h1 | h1
      · exact Or.inl h1
      · right
        rcases Bool.and_eq_true_iff.mp h1 with ⟨ha, hb⟩
        exact ⟨of_decide_eq_true ha, of_decide_eq_true hb⟩
    · intro h
      rcases h with h1 | ⟨ha, hb⟩
      · exact Bool.or_eq_true_iff.mpr (Or.inl h1)
      · exact Bool.or_eq_true_iff.mpr
          (Or.inr (Bool.and_eq_true_iff.mpr ⟨decide_eq_true ha, decide_eq_true hb⟩))
  · intro h
    rw [hiff]
    unfold rotationTriggered
    exact Bool.or_eq_true_iff.mpr (Or.inl h)

/-- Witness for `rotation_entry_condition`: with the default configuration
(threshold 3, immediate set with 429 and 503) and a fresh state, a 429
failure triggers rotation on the very first failure. -/
theorem rotation_entry_condition_witness :
    statusInImmediate ⟨3, [429, 503], 1, 40⟩ (some 429) = true ∧
      (handleRequestFailureAndSwitch ⟨3, [429, 503], 1, 40⟩ [0, 1]
          ⟨0, 0, 0, false⟩ (some 429) true true).rotationAttempted = true :=
  ⟨by decide,
   (rotation_entry_condition ⟨3, [429, 503], 1, 40⟩ [0, 1]
      ⟨0, 0, 0, false⟩ (some 429) true true).2 (by decide)⟩

/-- Claim C6: when rotation is attempted from a request failure while
fewer than two usable accounts exist, `_switchToNextAuth` throws the
only-one-account error, which `_handleRequestFailureAndSwitch` catches
(so it is not escalated further, the model being a total function),
leaving `currentAuthIndex` unchanged and resetting `failureCount`
to 0. -/
theorem rotation_only_one_account (cfg : Config) (available : List Nat)
    (st : HandlerState) (status : Option Int) (switchOk fallbackOk : Bool)
    (hone : available.length ≤ 1)
    (htrig : rotationTriggered cfg st status = true) :
    (handleRequestFailureAndSwitch cfg available st status switchOk fallbackOk).notice
        = some SwitchNotice.onlyOneAccount ∧
      (handleRequestFailureAndSwitch cfg available st status switchOk fallbackOk).finalState.currentAuthIndex
        = st.currentAuthIndex ∧
      (handleRequestFailureAndSwitch cfg available st status switchOk fallbackOk).finalState.failureCount
        = 0 := by
  have hsw : switchToNextAuth available (incrementFailureCount cfg st) switchOk fallbackOk
      = (.onlyOneAccountError, incrementFailureCount cfg st) := by
    unfold switchToNextAuth
    rw [if_pos hone]
  have hidx : (incrementFailureCount cfg st).currentAuthIndex = st.currentAuthIndex := by
    unfold incrementFailureCount
    split <;> rfl
  unfold handleRequestFailureAndSwitch
  rw [if_pos htrig, hsw]
  exact ⟨rfl, hidx, rfl⟩

/-- Witness for `rotation_only_one_account`: default config, a single
usable account, a failure with status 500 after two earlier failures
(the incremented counter 3 reaches the threshold 3). -/
theorem rotation_only_one_account_witness :
    ([0] : List Nat).length ≤ 1 ∧
      rotationTriggered ⟨3, [429, 503], 1, 40⟩ ⟨0, 2, 7, false⟩ (some 500) = true ∧
      ((handleRequestFailureAndSwitch ⟨3, [429, 503], 1, 40⟩ [0]
          ⟨0, 2, 7, false⟩ (some 500) true true).notice = some SwitchNotice.onlyOneAccount ∧
        (handleRequestFailureAndSwitch ⟨3, [429, 503], 1, 40⟩ [0]
          ⟨0, 2, 7, false⟩ (some 500) true true).finalState.currentAuthIndex = 0 ∧
        (handleRequestFailureAndSwitch ⟨3, [429, 503], 1, 40⟩ [0]
          ⟨0, 2, 7, false⟩ (some 500) true true).finalState.failureCount = 0) :=
  ⟨by decide, by decide,
   rotation_only_one_account ⟨3, [429, 503], 1, 40⟩ [0] ⟨0, 2, 7, false⟩ (some 500)
     true true (by decide) (by decide)⟩

/-! ## Retry loop of the pseudo-stream handlers, and the real-stream first
message handling (C1, C5) -/

/-- Substring test on character lists (helper for the JS
`String.prototype.includes` checks of the source). -/
def listContainsSub (pat : List Char) : List Char → Bool
  | [] => pat.isEmpty
  | c :: rest => pat.isPrefixOf (c :: rest) || listContainsSub pat rest

/-- JS `message.includes(pat)`. -/
def strIncludes (s pat : String) : Bool := listContainsSub pat.toList s.toList

/-- The abort marker tested throughout `RequestHandler`
(`The user aborted a request`). -/
def abortMarker : String := "The user aborted a request"

/-- First message dequeued for an attempt: an `error` event (with optional
status and message text) or any non-error message.  A 300-second dequeue
timeout is already represented here as `errorMsg (some 504) msg`, exactly
as the catch blocks of the pseudo-stream handlers synthesize it
(part_001 lines 507-514 and 1124-1131). -/
inductive FirstMsg
  | errorMsg (status : Option Int) (message : String)
  | ok
deriving DecidableEq, Repr

/-- Whether a message is an `error` event. -/
def FirstMsg.isError : FirstMsg → Bool
  | .errorMsg _ _ => true
  | .ok => false

/-- The user-abort test on a message
(`lastMessage.message && lastMessage.message.includes(...)`). -/
def isAbortMsg : FirstMsg → Bool
  | .errorMsg _ m => strIncludes m abortMarker
  | .ok => false

/-- Model of the retry loop body of `_handleOpenAIPseudoStreamResponse` /
`_handlePseudoStreamResponse` (part_001 lines 489-539 and 1103-1156),
running from attempt number `attempt` with `remaining` further attempts
allowed after it (so `remaining = maxRetries - attempt` and the JS
condition `attempt < maxRetries` is `0 < remaining`).  Each iteration
forwards the identical ProxyRequest and dequeues one first message
(`outcomes attempt`); an error message with attempts remaining sleeps
`retryDelay` and continues; the final error sets `requestFailed`.  Returns
the attempt number of the last iteration (equal to the number of forwarded
ProxyRequests), the `requestFailed` flag, and `lastMessage`. -/
def retryLoopFrom (outcomes : Nat → FirstMsg) (attempt : Nat) :
    Nat → Nat × Bool × FirstMsg
  | 0 =>
    match outcomes attempt with
    | .ok => (attempt, false, .ok)
    | .errorMsg s m => (attempt, true, .errorMsg s m)
  | remaining + 1 =>
    match outcomes attempt with
    | .ok => (attempt, false, .ok)
    | .errorMsg _ _ => retryLoopFrom outcomes (attempt + 1) remaining

/-- The whole retry loop `for (let attempt = 1; attempt <= maxRetries;
attempt++)`: with `maxRetries = 0` the body never runs (`lastMessage`
stays undefined, modelled as `none`); otherwise it starts at attempt 1
with `maxRetries - 1` further attempts allowed. -/
def retryLoop (outcomes : Nat → FirstMsg) (maxRetries : Nat) :
    Nat × Bool × Option FirstMsg :=
  match maxRetries with
  | 0 => (0, false, none)
  | m + 1 =>
    let r := retryLoopFrom outcomes 1 m
    (r.1, r.2.1, some r.2.2)

/-- Observable outcome of one pseudo-stream request handling run. -/
structure PseudoOutcome where
  forwards : Nat
  requestFailed : Bool
  lastMessage : Option FirstMsg
  failureAccounted : Bool
  errorChunkSent : Bool
  doneSent : Bool
deriving DecidableEq, Repr

/-- Whether the final dequeued message marked a user abort. -/
def PseudoOutcome.lastIsAbort (o : PseudoOutcome) : Bool :=
  match o.lastMessage with
  | some m => isAbortMsg m
  | none => false

/-- Model of a pseudo-stream handler run (part_001 lines 485-571 and
1099-1177): the retry loop followed by the failure handling.  When the
loop ends with `requestFailed` and the last message marks a user abort,
the failure is not counted (`_handleRequestFailureAndSwitch` is not
called) and no error chunk is sent; a non-aborted final failure is counted
and an error chunk is written; either way the `[DONE]` sentinel follows.
A successful run sends the content chunks and `[DONE]` with no error
chunk. -/
def pseudoStreamRun (outcomes : Nat → FirstMsg) (maxRetries : Nat) : PseudoOutcome :=
  let r := retryLoop outcomes maxRetries
  let lastAbort :=
    match r.2.2 with
    | some m => isAbortMsg m
    | none => false
  if r.2.1 then
    { forwards := r.1, requestFailed := true, lastMessage := r.2.2,
      failureAccounted := !lastAbort, errorChunkSent := !lastAbort, doneSent := true }
  else
    { forwards := r.1, requestFailed := false, lastMessage := r.2.2,
      failureAccounted := false, errorChunkSent := false, doneSent := true }

/-- Observable outcome of the first-message handling of
`_handleOpenAIRealStreamResponse`. -/
structure RealStreamInit where
  forwards : Nat
  failureAccounted : Bool
  errorChunkToClient : Bool
  doneSent : Bool
  proceedsToStreaming : Bool
deriving DecidableEq, Repr

/-- Model of the dispatch and first-message handling of
`_handleOpenAIRealStreamResponse` (part_001 lines 671-707): the
ProxyRequest is forwarded exactly once; if the first dequeued message is
an `error` event, `_handleRequestFailureAndSwitch(initialMessage, res)` is
run immediately (writing its notice chunk to the client), the `[DONE]`
sentinel is written and the response ends — there is no retry and no
abort check on this path. -/
def openAIRealStreamInit (firstMsg : FirstMsg) : RealStreamInit :=
  match firstMsg with
  | .errorMsg _ _ =>
      { forwards := 1, failureAccounted := true, errorChunkToClient := true,
        doneSent := true, proceedsToStreaming := false }
  | .ok =>
      { forwards := 1, failureAccounted := false, errorChunkToClient := false,
        doneSent := false, proceedsToStreaming := true }

/-! ### Lemmas about the retry loop -/

theorem retryLoopFrom_ok (outcomes : Nat → FirstMsg) :
    ∀ (remaining attempt : Nat),
      (∀ i, attempt ≤ i → i < attempt + remaining → (outcomes i).isError = true) →
      outcomes (attempt + remaining) = .ok →
      retryLoopFrom outcomes attempt remaining = (attempt + remaining, false, .ok) := by
  intro remaining
  induction remaining with
  | zero =>
    intro attempt _ hok
    simp only [Nat.add_zero] at hok
    simp [retryLoopFrom, hok]
  | succ r ih =>
    intro attempt herr hok
    have hlt : attempt < attempt + (r + 1) := by omega
    have herr1 : (outcomes attempt).isError = true := herr attempt (Nat.le_refl _) hlt
    cases hm : outcomes attempt with
    | ok => rw [hm] at herr1; simp [FirstMsg.isError] at herr1
    | errorMsg s m =>
      have hrec := ih (attempt + 1)
        (fun i h1 h2 => herr i (by omega) (by omega))
        (by rw [show attempt + 1 + r = attempt + (r + 1) by omega]; exact hok)
      simp only [retryLoopFrom, hm]
      rw [hrec]
      congr 1
      omega

theorem retryLoopFrom_failed_all_errors (outcomes : Nat → FirstMsg) :
    ∀ (remaining attempt : Nat),
      (retryLoopFrom outcomes attempt remaining).2.1 = true →
      ∀ i, attempt ≤ i → i ≤ attempt + remaining → (outcomes i).isError = true := by
  intro remaining
  induction remaining with
  | zero =>
    intro attempt hfail i h1 h2
    have hi : i = attempt := by omega
    subst hi
    cases hm : outcomes i with
    | ok => rw [retryLoopFrom, hm] at hfail; simp at hfail
    | errorMsg s m => simp [FirstMsg.isError]
  | succ r ih =>
    intro attempt hfail i h1 h2
    cases hm : outcomes attempt with
    | ok => rw [retryLoopFrom, hm] at hfail; simp at hfail
    | errorMsg s m =>
      rw [retryLoopFrom, hm] at hfail
      rcases Nat.eq_or_lt_of_le h1 with heq | hlt
      · rw [heq] at hm; simp [hm, FirstMsg.isError]
      · exact ih (attempt + 1) (by simpa using hfail) i hlt (by omega)

theorem retryLoopFrom_forwards_ge (outcomes : Nat → FirstMsg) :
    ∀ (remaining attempt : Nat), attempt ≤ (retryLoopFrom outcomes attempt remaining).1 := by
  intro remaining
  induction remaining with
  | zero =>
    intro attempt
    cases hm : outcomes attempt <;> simp [retryLoopFrom, hm]
  | succ r ih =>
    intro attempt
    cases hm : outcomes attempt with
    | ok => simp [retryLoopFrom, hm]
    | errorMsg s m =>
      rw [retryLoopFrom, hm]
      exact Nat.le_trans (by omega) (ih (attempt + 1))

/-- Counterexample to claim C1 as stated: the claim quantifies over every
request dispatched to the upstream channel, but the real-stream OpenAI
handler (`_handleOpenAIRealStreamResponse`) forwards the ProxyRequest
exactly once and produces a client-visible error on the very first
`error` message, without consulting `maxRetries` (here 3) or resending. -/
theorem c1_realstream_counterexample :
    (openAIRealStreamInit (.errorMsg (some 500) "upstream failure")).forwards = 1 ∧
      (openAIRealStreamInit (.errorMsg (some 500) "upstream failure")).errorChunkToClient = true ∧
      ¬ ((openAIRealStreamInit (.errorMsg (some 500) "upstream failure")).forwards = 3) := by
  decide

/-- Claim C1 as amended: for the pseudo-stream handlers the dispatched
ProxyRequest is resent after each `error` first message while attempts
remain, an upstream failing the first `maxRetries - 1` attempts and
succeeding on the last yields exactly `maxRetries` forwards, no request
failure and no error chunk; an error chunk is sent only when all
`maxRetries` attempts returned `error` messages; the real-stream handler
instead forwards exactly once. -/
theorem c1_retry_contract :
    (∀ (outcomes : Nat → FirstMsg) (maxRetries : Nat), 1 ≤ maxRetries →
        (∀ i, 1 ≤ i → i < maxRetries → (outcomes i).isError = true) →
        outcomes maxRetries = .ok →
        (pseudoStreamRun outcomes maxRetries).forwards = maxRetries ∧
          (pseudoStreamRun outcomes maxRetries).requestFailed = false ∧
          (pseudoStreamRun outcomes maxRetries).errorChunkSent = false) ∧
      (∀ (outcomes : Nat → FirstMsg) (maxRetries : Nat),
        (pseudoStreamRun outcomes maxRetries).errorChunkSent = true →
        ∀ i, 1 ≤ i → i ≤ maxRetries → (outcomes i).isError = true) ∧
      (∀ msg : FirstMsg, (openAIRealStreamInit msg).forwards = 1) := by
  refine ⟨?_, ?_, ?_⟩
  · intro outcomes maxRetries h1 herr hok
    obtain ⟨m, rfl⟩ : ∃ m, maxRetries = m + 1 := ⟨maxRetries - 1, by omega⟩
    have hfrom : retryLoopFrom outcomes 1 m = (m + 1, false, .ok) := by
      have h := retryLoopFrom_ok outcomes m 1 (fun i hi hlt => herr i hi (by omega))
        (by rw [show 1 + m = m + 1 by omega]; exact hok)
      rw [show 1 + m = m + 1 by omega] at h
      exact h
    have hloop : retryLoop outcomes (m + 1) = (m + 1, false, some .ok) := by
      rw [retryLoop, hfrom]
    simp [pseudoStreamRun, hloop, isAbortMsg]
  · intro outcomes maxRetries hchunk i h1 h2
    rcases hr : retryLoop outcomes maxRetries with ⟨f, failed, last⟩
    cases failed with
    | false => simp [pseudoStreamRun, hr] at hchunk
    | true =>
      cases maxRetries with
      | zero => rw [retryLoop] at hr; cases hr
      | succ m =>
        have hfail : (retryLoopFrom outcomes 1 m).2.1 = true := by
          rw [retryLoop] at hr
          have h := congrArg (fun t => t.2.1) hr
          simpa using h
        exact retryLoopFrom_failed_all_errors outcomes m 1 hfail i h1 (by omega)
  · intro msg
    cases msg <;> rfl

/-- Scenario of the specification example: the upstream fails attempts 1
and 2 and succeeds on attempt 3. -/
def failTwiceThenOk : Nat → FirstMsg := fun i =>
  if i < 3 then .errorMsg (some 500) "Internal error" else .ok

/-- Witness for `c1_retry_contract` at `maxRetries = 3` with the upstream
failing attempts 1-2 and succeeding on attempt 3: exactly 3 forwards, a
successful run, no error chunk. -/
theorem c1_retry_contract_witness :
    (1 : Nat) ≤ 3 ∧
      ((pseudoStreamRun failTwiceThenOk 3).forwards = 3 ∧
        (pseudoStreamRun failTwiceThenOk 3).requestFailed = false ∧
        (pseudoStreamRun failTwiceThenOk 3).errorChunkSent = false) :=
  ⟨by decide,
   c1_retry_contract.1 failTwiceThenOk 3 (by decide)
     (by
       intro i hi1 hi3
       have hi : i = 1 ∨ i = 2 := by omega
       rcases hi with rfl | rfl <;> decide)
     (by decide)⟩

/-- Scenario refuting claim C5: the first upstream reply marks a user
abort, and the second attempt succeeds. -/
def abortThenOk : Nat → FirstMsg := fun i =>
  if i = 1 then .errorMsg (some 499) "Error: The user aborted a request." else .ok

/-- Counterexample to claim C5 as stated: with `maxRetries = 2` and a
first reply marking a user abort, the retry loop still resends the
ProxyRequest (2 forwards, not 1) — the abort check inside the loop only
suppresses the warning log, it does not stop retrying. -/
theorem c5_abort_retry_counterexample :
    isAbortMsg (abortThenOk 1) = true ∧
      (pseudoStreamRun abortThenOk 2).forwards = 2 ∧
      ¬ ((pseudoStreamRun abortThenOk 2).forwards = 1) := by
  decide

/-- Claim C5 as amended: the abort exemption applies to the failure
accounting, not to retrying — when the loop ends failed and the last
message marks a user abort, the failure is not counted and no error chunk
is sent; but an `error` first reply (aborted or not) is resent whenever
attempts remain. -/
theorem c5_abort_accounting :
    (∀ (outcomes : Nat → FirstMsg) (maxRetries : Nat),
        (pseudoStreamRun outcomes maxRetries).requestFailed = true →
        (pseudoStreamRun outcomes maxRetries).lastIsAbort = true →
        (pseudoStreamRun outcomes maxRetries).failureAccounted = false ∧
          (pseudoStreamRun outcomes maxRetries).errorChunkSent = false) ∧
      (∀ (outcomes : Nat → FirstMsg) (maxRetries : Nat), 2 ≤ maxRetries →
        (outcomes 1).isError = true →
        2 ≤ (pseudoStreamRun outcomes maxRetries).forwards) := by
  constructor
  · intro outcomes maxRetries hfailed habort
    rcases hr : retryLoop outcomes maxRetries with ⟨f, failed, last⟩
    cases failed with
    | false => simp [pseudoStreamRun, hr] at hfailed
    | true =>
      cases hlast : last with
      | none =>
        rw [hlast] at hr
        simp [pseudoStreamRun, hr, PseudoOutcome.lastIsAbort] at habort
      | some m =>
        rw [hlast] at hr
        have hab : isAbortMsg m = true := by
          simpa [pseudoStreamRun, hr, PseudoOutcome.lastIsAbort] using habort
        simp [pseudoStreamRun, hr, hab]
  · intro outcomes maxRetries h2 herr1
    obtain ⟨m', rfl⟩ : ∃ m', maxRetries = m' + 2 := ⟨maxRetries - 2, by omega⟩
    have hstep : retryLoopFrom outcomes 1 (m' + 1) = retryLoopFrom outcomes 2 m' := by
      cases hm : outcomes 1 with
      | ok => rw [hm] at herr1; simp [FirstMsg.isError] at herr1
      | errorMsg s msg => rw [retryLoopFrom, hm]
    have hge : 2 ≤ (retryLoopFrom outcomes 2 m').1 := retryLoopFrom_forwards_ge outcomes m' 2
    rcases hr : retryLoop outcomes (m' + 2) with ⟨f, failed, last⟩
    have hf : f = (retryLoopFrom outcomes 2 m').1 := by
      rw [show m' + 2 = (m' + 1) + 1 by omega, retryLoop, hstep] at hr
      have h := congrArg (fun t => t.1) hr
      simpa using h.symm
    have hforwards : (pseudoStreamRun outcomes (m' + 2)).forwards = f := by
      cases failed <;> simp [pseudoStreamRun, hr]
    rw [hforwards, hf]
    exact hge

/-- Scenario for the `c5_abort_accounting` witness: every reply marks a
user abort. -/
def allAbort : Nat → FirstMsg := fun _ =>
  .errorMsg (some 499) "AbortError: The user aborted a request."

/-- Witness for `c5_abort_accounting`: a single-attempt run ending on an
abort message counts no failure and sends no error chunk, and with two
attempts allowed an erroring first reply is resent. -/
theorem c5_abort_accounting_witness :
    ((pseudoStreamRun allAbort 1).requestFailed = true ∧
        (pseudoStreamRun allAbort 1).lastIsAbort = true ∧
        ((pseudoStreamRun allAbort 1).failureAccounted = false ∧
          (pseudoStreamRun allAbort 1).errorChunkSent = false)) ∧
      ((2 : Nat) ≤ 2 ∧ (allAbort 1).isError = true ∧
        2 ≤ (pseudoStreamRun allAbort 2).forwards) :=
  ⟨⟨by decide, by decide, c5_abort_accounting.1 allAbort 1 (by decide) (by decide)⟩,
   ⟨by decide, by decide, c5_abort_accounting.2 allAbort 2 (by decide) (by decide)⟩⟩

/-! ## Generic request-error handling (C4) -/

/-- Client-visible actions of the error paths: an in-band SSE error chunk
(`_sendErrorChunkToClient`), a JSON error response
(`_sendErrorResponse` with a status), or ending the connection. -/
inductive ClientAction
  | errorChunk
  | jsonError (status : Int)
  | endConn
deriving DecidableEq, Repr

/-- Model of `_handleRequestError` (part_001 lines 1442-1457) for a
response that is still writable.  With headers already sent, an in-band
error chunk is written only when the response was opened as a
pseudo-stream (`res.locals.__proxyPseudoStream`) or the global streaming
mode is `fake`, and then the connection is ended; with headers not yet
sent, a JSON error response is sent with status 504 when the message
contains the timeout marker and 500 otherwise. -/
def handleRequestError (headersSent pseudoStreamFlag : Bool)
    (streamingMode errMessage : String) : List ClientAction :=
  if headersSent then
    let expectsPseudoChunks := pseudoStreamFlag || (streamingMode == "fake")
    (if expectsPseudoChunks then [ClientAction.errorChunk] else []) ++ [ClientAction.endConn]
  else
    [ClientAction.jsonError (if strIncludes errMessage "超时" then 504 else 500)]

/-- Counterexample to claim C4 as stated: for a real-mode streaming
response whose headers were already sent (pseudo-stream flag not set), a
later error makes `_handleRequestError` end the connection with no
in-band terminal event and no completion sentinel. -/
theorem c4_no_terminal_marker_counterexample :
    handleRequestError true false "real" "stream interrupted" = [ClientAction.endConn] ∧
      ClientAction.errorChunk ∉ handleRequestError true false "real" "stream interrupted" := by
  decide

/-- Claim C4 as amended: once headers are sent, a later error reaching the
generic error handler produces an in-band error event (with no completion
sentinel) exactly when the response was opened as a pseudo-stream or the
global mode is `fake`; the connection is always ended, and in real mode
without the pseudo flag it is closed without any terminal marker. -/
theorem c4_error_delivery (pseudoStreamFlag : Bool) (streamingMode errMessage : String) :
    (ClientAction.errorChunk ∈ handleRequestError true pseudoStreamFlag streamingMode errMessage ↔
        (pseudoStreamFlag = true ∨ streamingMode = "fake")) ∧
      (handleRequestError true pseudoStreamFlag streamingMode errMessage).getLast? =
        some ClientAction.endConn := by
  constructor
  · cases pseudoStreamFlag with
    | true => simp [handleRequestError]
    | false =>
      by_cases h : streamingMode = "fake"
      · simp [handleRequestError, h]
      · have hb : (streamingMode == "fake") = false := beq_eq_false_iff_ne.mpr h
        simp [handleRequestError, hb, h]
  · cases pseudoStreamFlag with
    | true => simp [handleRequestError]
    | false =>
      by_cases h : streamingMode = "fake"
      · simp [handleRequestError, h]
      · have hb : (streamingMode == "fake") = false := beq_eq_false_iff_ne.mpr h
        simp [handleRequestError, hb]

/-- Witness for `c4_error_delivery` at the `fake` global mode: the error
chunk is present and the connection is ended last. -/
theorem c4_error_delivery_witness :
    ClientAction.errorChunk ∈ handleRequestError true false "fake" "boom" ∧
      (handleRequestError true false "fake" "boom").getLast? = some ClientAction.endConn :=
  ⟨(c4_error_delivery false "fake" "boom").1.mpr (Or.inr rfl),
   (c4_error_delivery false "fake" "boom").2⟩

/-! ## Streaming-mode resolution under mix mode (C7) -/

/-- The reserved fake-stream marker (`this.fakeStreamPrefix`, part_001
line 23). -/
def fakeStreamMarker : String := "假流式/"

/-- JS `String.prototype.startsWith`, computed on the character lists
(every identifier involved is in the basic multilingual plane, so JS
code-unit indexing and character indexing agree). -/
def strStartsWith (s pre : String) : Bool := pre.toList.isPrefixOf s.toList

/-- JS `String.prototype.slice(n)` for a non-negative character index. -/
def strDrop (s : String) (n : Nat) : String := String.mk (s.toList.drop n)

/-- Model of `_isFakeStreamModelId` (part_001 lines 1942-1946). -/
def isFakeStreamModelId (modelId : String) : Bool :=
  strStartsWith modelId fakeStreamMarker

/-- Model of `_stripFakeStreamPrefix` (part_001 lines 1948-1953). -/
def stripFakeStreamMarker (modelId : String) : String :=
  if isFakeStreamModelId modelId then strDrop modelId fakeStreamMarker.length else modelId

/-- Result of `_normalizeMixModeModelId`. -/
structure ModelContext where
  requestedModel : String
  normalizedModel : String
  isFake : Bool
deriving DecidableEq, Repr

/-- Model of `_normalizeMixModeModelId` (part_001 lines 1648-1661): the
identifier is marked fake only under global mode `mix`; the stripped
identifier is used unless it is empty (the JS `stripped ||
normalizedModelId` fallback), and the original identifier is kept as
`requestedModel`. -/
def normalizeMixModeModelId (streamingMode modelId : String) : ModelContext :=
  let isFake := (streamingMode == "mix") && isFakeStreamModelId modelId
  let stripped := if isFake then stripFakeStreamMarker modelId else modelId
  { requestedModel := modelId,
    normalizedModel := if stripped == "" then modelId else stripped,
    isFake := isFake }

/-- Model of `_resolveStreamingModeForRequest` (part_001 lines
1663-1668): outside `mix` the global mode is used directly; under `mix`
the per-request mode is `fake` exactly when the context is marked fake
(a missing context resolves `real`). -/
def resolveStreamingModeForRequest (streamingMode : String)
    (ctx : Option ModelContext) : String :=
  if streamingMode != "mix" then streamingMode
  else
    match ctx with
    | some c => if c.isFake then "fake" else "real"
    | none => "real"

/-- Counterexample to claim C7 as stated: a requested model identifier
equal to the marker itself starts with the fake-stream marker (so the
claim demands stripping), yet the JS falsy fallback keeps the original
identifier as the upstream model instead of the stripped empty string. -/
theorem c7_marker_only_counterexample :
    (normalizeMixModeModelId "mix" "假流式/").isFake = true ∧
      (normalizeMixModeModelId "mix" "假流式/").normalizedModel = "假流式/" ∧
      ¬ ((normalizeMixModeModelId "mix" "假流式/").normalizedModel =
          strDrop "假流式/" fakeStreamMarker.length) := by
  decide

/-- Claim C7 as amended: under global mode `mix` the effective per-request
mode is `fake` exactly when the requested identifier starts with the
fake-stream marker (else `real`); the marked identifier is kept as the
requested model, and the marker is stripped for the upstream model
whenever the stripped remainder is non-empty; under global modes `real`
and `fake` the global mode is used directly. -/
theorem c7_mix_mode_resolution :
    (∀ modelId : String,
        resolveStreamingModeForRequest "mix" (some (normalizeMixModeModelId "mix" modelId)) =
          (if strStartsWith modelId fakeStreamMarker then "fake" else "real") ∧
        (normalizeMixModeModelId "mix" modelId).requestedModel = modelId ∧
        (strStartsWith modelId fakeStreamMarker = true →
          strDrop modelId fakeStreamMarker.length ≠ "" →
          (normalizeMixModeModelId "mix" modelId).normalizedModel =
            strDrop modelId fakeStreamMarker.length)) ∧
      (∀ ctx, resolveStreamingModeForRequest "real" ctx = "real") ∧
      (∀ ctx, resolveStreamingModeForRequest "fake" ctx = "fake") := by
  refine ⟨?_, ?_, ?_⟩
  · intro modelId
    refine ⟨?_, rfl, ?_⟩
    · cases hs : strStartsWith modelId fakeStreamMarker with
      | true =>
        simp [resolveStreamingModeForRequest, normalizeMixModeModelId,
          isFakeStreamModelId, hs]
      | false =>
        simp [resolveStreamingModeForRequest, normalizeMixModeModelId,
          isFakeStreamModelId, hs]
    · intro hs hne
      have hb : (strDrop modelId fakeStreamMarker.length == "") = false :=
        beq_eq_false_iff_ne.mpr hne
      simp [normalizeMixModeModelId, isFakeStreamModelId, stripFakeStreamMarker, hs, hb]
  · intro ctx
    rfl
  · intro ctx
    rfl

/-- Witness for `c7_mix_mode_resolution` at the marked identifier
`假流式/gemini-2.5-pro`: the per-request mode resolves to `fake` and the
upstream model is the identifier with the marker stripped. -/
theorem c7_mix_mode_resolution_witness :
    resolveStreamingModeForRequest "mix"
        (some (normalizeMixModeModelId "mix" "假流式/gemini-2.5-pro")) =
      (if strStartsWith "假流式/gemini-2.5-pro" fakeStreamMarker then "fake" else "real") ∧
      (normalizeMixModeModelId "mix" "假流式/gemini-2.5-pro").normalizedModel =
        strDrop "假流式/gemini-2.5-pro" fakeStreamMarker.length :=
  ⟨(c7_mix_mode_resolution.1 "假流式/gemini-2.5-pro").1,
   (c7_mix_mode_resolution.1 "假流式/gemini-2.5-pro").2.2 (by decide) (by decide)⟩

/-! ## OpenAI to native request translation (C9) -/

/-- Content part of an OpenAI chat message: a text part, an image-URL
part (`part.image_url.url`), or a part of any other type (skipped by the
translator). -/
inductive OAPart
  | text (t : String)
  | imageUrl (url : String)
  | otherPart
deriving DecidableEq, Repr

/-- Message content: a plain string, an array of parts, or anything else
(JS `null`/object, which yields no parts). -/
inductive OAContent
  | str (s : String)
  | parts (ps : List OAPart)
  | nullContent
deriving DecidableEq, Repr

/-- Whether the content is a plain string. -/
def OAContent.isStr : OAContent → Bool
  | .str _ => true
  | _ => false

/-- The string value of a plain-string content (defaulting to `""`). -/
def OAContent.strVal : OAContent → String
  | .str s => s
  | _ => ""

/-- JS string coercion of a content value, as applied by
`systemMessages.map((msg) => msg.content).join("\n")`: a string coerces
to itself; the non-string shapes coerce to JS artifacts whose exact text
is irrelevant here (the claims are settled under the hypothesis that
system contents are strings). -/
def jsStringOfContent : OAContent → String
  | .str s => s
  | .parts _ => "[object Object]"
  | .nullContent => "null"

/-- One OpenAI chat message. -/
structure OAMessage where
  role : String
  content : OAContent
deriving DecidableEq, Repr

/-- The OpenAI request fields read by `_translateOpenAIToGoogle`.  The
numeric generation parameters are copied verbatim by the translator, so
their JSON numbers are modelled as rationals. -/
structure OABody where
  messages : List OAMessage
  temperature : Option Rat
  top_p : Option Rat
  top_k : Option Rat
  max_tokens : Option Rat
  stop : Option (List String)
deriving DecidableEq, Repr

/-- Native content part. -/
inductive GPart
  | text (t : String)
  | inlineData (mimeType data : String)
deriving DecidableEq, Repr

/-- Native content entry. -/
structure GContent where
  role : String
  parts : List GPart
deriving DecidableEq, Repr

/-- Native generation configuration. -/
structure GGenerationConfig where
  temperature : Option Rat
  topP : Option Rat
  topK : Option Rat
  maxOutputTokens : Option Rat
  stopSequences : Option (List String)
deriving DecidableEq, Repr

/-- Native safety setting. -/
structure GSafetySetting where
  category : String
  threshold : String
deriving DecidableEq, Repr

/-- Native request produced by the translator. -/
structure GRequest where
  contents : List GContent
  systemInstruction : Option (List GPart)
  generationConfig : GGenerationConfig
  safetySettings : List GSafetySetting
deriving DecidableEq, Repr

/-- Characters matched by an unflagged JS RegExp `.` (everything except
the four line terminators). -/
def isRegExpDotChar (c : Char) : Bool :=
  c != '\n' && c != '\r' && c != '\u2028' && c != '\u2029'

/-- Split a character list at the first occurrence of `pat`, returning
the part before it and the part after it. -/
def splitAtFirstSub (pat : List Char) : List Char → Option (List Char × List Char)
  | [] => if pat = [] then some ([], []) else none
  | c :: rest =>
    if pat.isPrefixOf (c :: rest) then some ([], (c :: rest).drop pat.length)
    else
      match splitAtFirstSub pat rest with
      | some (pre, post) => some (c :: pre, post)
      | none => none

/-- Match of the regular expression `^data:(image\/.*?);base64,(.*)$`
used by `_translateOpenAIToGoogle` (part_001 line 1506): the input must
start with `data:`, the lazy first group makes the split happen at the
first occurrence of `;base64,`, the group must start with `image/`, and
since `.` matches no line terminator both groups must be free of them
(extending a lazy group over a line terminator can never succeed, so no
later occurrence can match either). -/
def parseImageDataUrlChars (cs : List Char) : Option (List Char × List Char) :=
  if ("data:".toList).isPrefixOf cs then
    match splitAtFirstSub ";base64,".toList (cs.drop 5) with
    | some (mime, dataPart) =>
        if ("image/".toList).isPrefixOf mime && mime.all isRegExpDotChar
            && dataPart.all isRegExpDotChar
        then some (mime, dataPart)
        else none
    | none => none
  else none

/-- String form of the data-URL match, yielding the `mimeType` and
base64 `data` groups. -/
def parseImageDataUrl (url : String) : Option (String × String) :=
  match parseImageDataUrlChars url.toList with
  | some (mime, d) => some (String.mk mime, String.mk d)
  | none => none

/-- Translation of a single OpenAI content part (the loop body at
part_001 lines 1501-1516): text parts become native text parts,
image-URL parts matching the data-URL pattern become inline-data parts,
everything else is skipped. -/
def oaPartToGoogle : OAPart → Option GPart
  | .text t => some (.text t)
  | .imageUrl url =>
    match parseImageDataUrl url with
    | some (mime, d) => some (.inlineData mime d)
    | none => none
  | .otherPart => none

/-- Translation of a message content into native parts (part_001 lines
1496-1517): a string content gives one text part, an array is translated
part by part, anything else gives no parts. -/
def oaContentToParts : OAContent → List GPart
  | .str s => [.text s]
  | .parts ps => ps.filterMap oaPartToGoogle
  | .nullContent => []

/-- Model of `_translateOpenAIToGoogle` (part_001 lines 1475-1550). -/
def translateOpenAIToGoogle (body : OABody) : GRequest :=
  let systemMessages := body.messages.filter (fun m => m.role == "system")
  let systemInstruction :=
    if systemMessages.length > 0 then
      some [GPart.text
        (String.intercalate "\n" (systemMessages.map (fun m => jsStringOfContent m.content)))]
    else none
  let conversationMessages := body.messages.filter (fun m => m.role != "system")
  let googleContents := conversationMessages.map (fun m =>
    ({ role := if m.role == "assistant" then "model" else "user",
       parts := oaContentToParts m.content } : GContent))
  { contents := googleContents,
    systemInstruction := systemInstruction,
    generationConfig :=
      { temperature := body.temperature, topP := body.top_p, topK := body.top_k,
        maxOutputTokens := body.max_tokens, stopSequences := body.stop },
    safetySettings :=
      [ ⟨"HARM_CATEGORY_HARASSMENT", "BLOCK_NONE"⟩,
        ⟨"HARM_CATEGORY_HATE_SPEECH", "BLOCK_NONE"⟩,
        ⟨"HARM_CATEGORY_SEXUALLY_EXPLICIT", "BLOCK_NONE"⟩,
        ⟨"HARM_CATEGORY_DANGEROUS_CONTENT", "BLOCK_NONE"⟩ ] }

theorem splitAtFirstSub_exact (pat : List Char) (post : List Char)
    (c0 : Char) (patRest : List Char) (hpat : pat = c0 :: patRest) :
    ∀ pre : List Char, (∀ c ∈ pre, c ≠ c0) →
      splitAtFirstSub pat (pre ++ pat ++ post) = some (pre, post) := by
  intro pre
  induction pre with
  | nil =>
    intro _
    subst hpat
    have hpre : (c0 :: patRest).isPrefixOf (c0 :: (patRest ++ post)) = true := by
      rw [ List.isPrefixOf_iff_prefix, ← List.cons_append]
      exact List.prefix_append _ _
    simp only [List.nil_append, List.cons_append, splitAtFirstSub, List.append_eq,
      hpre, if_true]
    rw [← List.cons_append, List.drop_left]
  | cons c pre' ih =>
    intro hno
    have hc : (c0 == c) = false :=
      beq_eq_false_iff_ne.mpr (Ne.symm (hno c (List.mem_cons_self c pre')))
    have hrec := ih (fun x hx => hno x (List.mem_cons_of_mem c hx))
    subst hpat
    have hl : (c :: pre') ++ (c0 :: patRest) ++ post
        = c :: (pre' ++ (c0 :: patRest) ++ post) := by simp
    rw [hl, splitAtFirstSub]
    have hnotpre : (c0 :: patRest).isPrefixOf (c :: (pre' ++ (c0 :: patRest) ++ post))
        = ((c0 == c) && patRest.isPrefixOf (pre' ++ (c0 :: patRest) ++ post)) := rfl
    rw [hnotpre, hc, Bool.false_and, if_neg (by simp), hrec]

/-- Claim C9: the OpenAI-to-native translation concatenates all
system-role messages into a single system instruction; maps every
non-system message with role `assistant` to `model` and every other role
to `user`; maps string contents to a native text part and data-URL image
parts to inline-data parts; maps the five generation parameters
one-to-one; and always emits the four block-none safety settings. -/
theorem c9_openai_translation (body : OABody)
    (hsys : ∀ m ∈ body.messages, m.role = "system" → m.content.isStr = true) :
    ((body.messages.filter (fun m => m.role == "system")) = [] →
        (translateOpenAIToGoogle body).systemInstruction = none) ∧
      ((body.messages.filter (fun m => m.role == "system")) ≠ [] →
        (translateOpenAIToGoogle body).systemInstruction =
          some [GPart.text (String.intercalate "\n"
            ((body.messages.filter (fun m => m.role == "system")).map
              (fun m => m.content.strVal)))]) ∧
      (∀ i : Nat,
        ((translateOpenAIToGoogle body).contents[i]?).map GContent.role =
          ((body.messages.filter (fun m => m.role != "system"))[i]?).map
            (fun m => if m.role = "assistant" then "model" else "user")) ∧
      (∀ i : Nat,
        ((translateOpenAIToGoogle body).contents[i]?).map GContent.parts =
          ((body.messages.filter (fun m => m.role != "system"))[i]?).map
            (fun m => oaContentToParts m.content)) ∧
      (∀ s, oaContentToParts (OAContent.str s) = [GPart.text s]) ∧
      (∀ (mime d : List Char),
        ("image/".toList).isPrefixOf mime = true →
        mime.all isRegExpDotChar = true →
        d.all isRegExpDotChar = true →
        (∀ c ∈ mime, c ≠ ';') →
        oaPartToGoogle (OAPart.imageUrl
            (String.mk ("data:".toList ++ mime ++ ";base64,".toList ++ d)))
          = some (GPart.inlineData (String.mk mime) (String.mk d))) ∧
      (translateOpenAIToGoogle body).generationConfig =
        ⟨body.temperature, body.top_p, body.top_k, body.max_tokens, body.stop⟩ ∧
      (translateOpenAIToGoogle body).safetySettings =
        [⟨"HARM_CATEGORY_HARASSMENT", "BLOCK_NONE"⟩,
         ⟨"HARM_CATEGORY_HATE_SPEECH", "BLOCK_NONE"⟩,
         ⟨"HARM_CATEGORY_SEXUALLY_EXPLICIT", "BLOCK_NONE"⟩,
         ⟨"HARM_CATEGORY_DANGEROUS_CONTENT", "BLOCK_NONE"⟩] := by
  have hconts : (translateOpenAIToGoogle body).contents =
      (body.messages.filter (fun m => m.role != "system")).map (fun m =>
        ({ role := if m.role == "assistant" then "model" else "user",
           parts := oaContentToParts m.content } : GContent)) := rfl
  refine ⟨?_, ?_, ?_, ?_, ?_, ?_, rfl, rfl⟩
  · intro hfil
    show (if (body.messages.filter (fun m => m.role == "system")).length > 0
        then _ else none) = none
    rw [hfil]
    rfl
  · intro hfil
    have hlen : (body.messages.filter (fun m => m.role == "system")).length > 0 :=
      List.length_pos.mpr hfil
    have hmapeq : (body.messages.filter (fun m => m.role == "system")).map
        (fun m => jsStringOfContent m.content) =
        (body.messages.filter (fun m => m.role == "system")).map
          (fun m => m.content.strVal) := by
      apply List.map_congr_left
      intro m hm
      rcases List.mem_filter.mp hm with ⟨hmem, hrole⟩
      have hstr := hsys m hmem (by simpa [beq_iff_eq] using hrole)
      cases hc : m.content with
      | str s => rfl
      | parts ps => rw [hc] at hstr; simp [OAContent.isStr] at hstr
      | nullContent => rw [hc] at hstr; simp [OAContent.isStr] at hstr
    show (if (body.messages.filter (fun m => m.role == "system")).length > 0
        then some [GPart.text (String.intercalate "\n"
          ((body.messages.filter (fun m => m.role == "system")).map
            (fun m => jsStringOfContent m.content)))] else none) = _
    rw [if_pos hlen, hmapeq]
  · intro i
    rw [hconts, List.getElem?_map]
    cases hx : (body.messages.filter (fun m => m.role != "system"))[i]? with
    | none => rfl
    | some m =>
      simp only [Option.map_some']
      by_cases h : m.role = "assistant"
      · simp [h]
      · have hb : (m.role == "assistant") = false := beq_eq_false_iff_ne.mpr h
        simp [h, hb]
  · intro i
    rw [hconts, List.getElem?_map]
    cases hx : (body.messages.filter (fun m => m.role != "system"))[i]? with
    | none => rfl
    | some m => rfl
  · intro s
    rfl
  · intro mime d hpre hmime hd hsemi
    have hdrop : ("data:".toList ++ mime ++ ";base64,".toList ++ d).drop 5
        = mime ++ ";base64,".toList ++ d := by
      rw [show ("data:".toList ++ mime ++ ";base64,".toList ++ d)
          = "data:".toList ++ (mime ++ ";base64,".toList ++ d) by simp,
        show (5 : Nat) = ("data:".toList).length from rfl, List.drop_left]
    have hsplit : splitAtFirstSub ";base64,".toList
        (mime ++ ";base64,".toList ++ d) = some (mime, d) := by
      have h := splitAtFirstSub_exact ";base64,".toList d ';' "base64,".toList rfl mime hsemi
      simpa using h
    have hdataPre : ("data:".toList).isPrefixOf
        ("data:".toList ++ mime ++ ";base64,".toList ++ d) = true := by
      rw [ List.isPrefixOf_iff_prefix]
      rw [show ("data:".toList ++ mime ++ ";base64,".toList ++ d)
          = "data:".toList ++ (mime ++ ";base64,".toList ++ d) by simp]
      exact List.prefix_append _ _
    have hparse : parseImageDataUrl
        (String.mk ("data:".toList ++ mime ++ ";base64,".toList ++ d))
        = some (String.mk mime, String.mk d) := by
      rw [parseImageDataUrl]
      have hl : (String.mk ("data:".toList ++ mime ++ ";base64,".toList ++ d)).toList
          = "data:".toList ++ mime ++ ";base64,".toList ++ d := rfl
      rw [hl, parseImageDataUrlChars, if_pos hdataPre, hdrop, hsplit]
      have hpre' : ['i', 'm', 'a', 'g', 'e', '/'] <+: mime :=
        List.isPrefixOf_iff_prefix.mp hpre
      simp [hpre', hmime, hd]
    rw [oaPartToGoogle, hparse]

/-- Sample OpenAI request used as the translation witness. -/
def sampleOABody : OABody :=
  { messages :=
      [ ⟨"system", .str "Be nice."⟩,
        ⟨"user", .str "Hello"⟩,
        ⟨"assistant", .parts [.text "Hi", .imageUrl "data:image/png;base64,QUJD"]⟩ ],
    temperature := some (7 / 10 : Rat), top_p := some 1, top_k := none,
    max_tokens := some 256, stop := some ["END"] }

/-- Witness for `c9_openai_translation` at `sampleOABody`: the system
instruction, the role of the second conversation message, the generation
configuration, and the inline-data translation of a concrete image data
URL. -/
theorem c9_openai_translation_witness :
    (translateOpenAIToGoogle sampleOABody).systemInstruction =
        some [GPart.text (String.intercalate "\n"
          ((sampleOABody.messages.filter (fun m => m.role == "system")).map
            (fun m => m.content.strVal)))] ∧
      ((translateOpenAIToGoogle sampleOABody).contents[1]?).map GContent.role =
        ((sampleOABody.messages.filter (fun m => m.role != "system"))[1]?).map
          (fun m => if m.role = "assistant" then "model" else "user") ∧
      (translateOpenAIToGoogle sampleOABody).generationConfig =
        ⟨sampleOABody.temperature, sampleOABody.top_p, sampleOABody.top_k,
          sampleOABody.max_tokens, sampleOABody.stop⟩ ∧
      oaPartToGoogle (OAPart.imageUrl
          (String.mk ("data:".toList ++ "image/png".toList ++ ";base64,".toList
            ++ "QUJD".toList)))
        = some (GPart.inlineData (String.mk "image/png".toList)
            (String.mk "QUJD".toList)) :=
  ⟨(c9_openai_translation sampleOABody (by decide)).2.1 (by decide),
   (c9_openai_translation sampleOABody (by decide)).2.2.1 1,
   (c9_openai_translation sampleOABody (by decide)).2.2.2.2.2.2.1,
   (c9_openai_translation sampleOABody (by decide)).2.2.2.2.2.1
     "image/png".toList "QUJD".toList (by decide) (by decide) (by decide) (by decide)⟩

/-! ## SSE re-framing of the OpenAI real-stream handler (C8) -/

/-- First normalization pass applied to each incoming chunk
(`message.data.replace(/\r\n/g, "\n")`, part_001 line 802): every
carriage-return/line-feed pair becomes a single line feed, scanning left
to right without overlap. -/
def replaceCrLf : List Char → List Char
  | [] => []
  | [c] => [c]
  | c1 :: c2 :: rest =>
    if c1 = '\r' ∧ c2 = '\n' then '\n' :: replaceCrLf rest
    else c1 :: replaceCrLf (c2 :: rest)

/-- Second normalization pass (`.replace(/\r/g, "\n")`, part_001 line
803): every remaining carriage return becomes a line feed. -/
def replaceCr (l : List Char) : List Char :=
  l.map (fun c => if c = '\r' then '\n' else c)

/-- Per-chunk normalization of `_handleOpenAIRealStreamResponse`
(part_001 lines 800-804). -/
def normalizeChunk (l : List Char) : List Char := replaceCr (replaceCrLf l)

/-- Model of `sseBuffer.indexOf("\n\n")` plus the two slices of
`processSseBuffer` (part_001 lines 750-759): cut the buffer at the first
blank line, returning the event before it and the rest after the two
line feeds, or nothing when no blank line is present. -/
def cutAtBlankLine : List Char → Option (List Char × List Char)
  | [] => none
  | [_] => none
  | c1 :: c2 :: rest =>
    if c1 = '\n' ∧ c2 = '\n' then some ([], rest)
    else
      match cutAtBlankLine (c2 :: rest) with
      | some (pre, post) => some (c1 :: pre, post)
      | none => none

/-- Fuel-indexed form of the `while` loop of `processSseBuffer`: cut raw
events off the buffer while a blank line remains.  Each cut removes at
least two characters, so fuel equal to the buffer length always
suffices. -/
def drainBufferAux : Nat → List Char → List (List Char) × List Char
  | 0, l => ([], l)
  | fuel + 1, l =>
    match cutAtBlankLine l with
    | none => ([], l)
    | some (pre, post) =>
      let r := drainBufferAux fuel post
      (pre :: r.1, r.2)

/-- The `processSseBuffer` loop: the list of raw events cut off, and the
remaining buffer. -/
def drainBuffer (l : List Char) : List (List Char) × List Char :=
  drainBufferAux l.length l

/-- The per-message loop of `_handleOpenAIRealStreamResponse` (part_001
lines 761-807) restricted to `chunk` messages: append each normalized
chunk to the buffer and drain it, collecting the raw events in order. -/
def runChunks : List Char → List (List Char) → List (List Char) × List Char
  | buf, [] => ([], buf)
  | buf, chunk :: rest =>
    let r1 := drainBuffer (buf ++ chunk)
    let r2 := runChunks r1.2 rest
    (r1.1 ++ r2.1, r2.2)

/-- JS `rawEvent.split("\n")`. -/
def splitOnNl : List Char → List (List Char)
  | [] => [[]]
  | c :: rest =>
    let r := splitOnNl rest
    if c = '\n' then [] :: r
    else
      match r with
      | [] => [[c]]
      | line :: more => (c :: line) :: more

/-- JS `String.prototype.trimStart` on characters. -/
def trimStartChars (l : List Char) : List Char := l.dropWhile Char.isWhitespace

/-- JS `String.prototype.trim` on characters. -/
def trimChars (l : List Char) : List Char :=
  ((l.dropWhile Char.isWhitespace).reverse.dropWhile Char.isWhitespace).reverse

/-- One iteration of the line loop of `processSseEvent` (part_001 lines
720-729): empty lines and comment lines are skipped, `data:` lines
contribute their trimmed value, all other lines are ignored. -/
def dataLinePayload (line : List Char) : Option (List Char) :=
  if line = [] then none
  else if line.head? = some ':' then none
  else if ("data:".toList).isPrefixOf line then some (trimStartChars (line.drop 5))
  else none

/-- Model of `processSseEvent` (part_001 lines 717-748) up to the payload
it passes to the translator: the `data:` line values joined with a line
feed and trimmed, with empty payloads and the literal `[DONE]` treated as
no-ops. -/
def processSseEventPayload (rawEvent : List Char) : Option (List Char) :=
  let dataLines := (splitOnNl rawEvent).filterMap dataLinePayload
  if dataLines = [] then none
  else
    let payload := trimChars (List.intercalate ['\n'] dataLines)
    if payload = [] then none
    else if payload = "[DONE]".toList then none
    else some payload

/-- The raw events produced by a finished stream: the events drained
chunk by chunk, followed by the final flush at `STREAM_END` (part_001
lines 763-767: a trailing non-blank buffer gets a blank line appended and
is drained once more). -/
def finishStream (r : List (List Char) × List Char) : List (List Char) :=
  r.1 ++ (if trimChars r.2 = [] then [] else (drainBuffer (r.2 ++ ['\n', '\n'])).1)

/-- The sequence of payloads handed to the translator for a complete
stream delivered as the given chunk messages: each chunk normalized and
buffered, events cut at blank lines, blank events skipped
(`if (rawEvent.trim())`), and each surviving event reduced to its
payload. -/
def emittedPayloads (chunks : List (List Char)) : List (List Char) :=
  ((finishStream (runChunks [] (chunks.map normalizeChunk))).filter
      (fun ev => !(trimChars ev).isEmpty)).filterMap processSseEventPayload

theorem cutAtBlankLine_decomp :
    ∀ (l pre post : List Char), cutAtBlankLine l = some (pre, post) →
      l = pre ++ '\n' :: '\n' :: post := by
  intro l
  induction l with
  | nil => intro pre post h; simp [cutAtBlankLine] at h
  | cons c1 rest ih =>
    intro pre post h
    cases rest with
    | nil => simp [cutAtBlankLine] at h
    | cons c2 rest2 =>
      rw [cutAtBlankLine] at h
      by_cases hc : c1 = '\n' ∧ c2 = '\n'
      · rw [if_pos hc] at h
        rcases Option.some.inj h with h'
        rcases Prod.mk.injEq _ _ _ _ ▸ h' with ⟨hp, hs⟩
        subst hp
        subst hs
        simp [hc.1, hc.2]
      · rw [if_neg hc] at h
        cases hcut : cutAtBlankLine (c2 :: rest2) with
        | none => rw [hcut] at h; cases h
        | some pp =>
          rcases pp with ⟨p2, s2⟩
          rw [hcut] at h
          rcases Option.some.inj h with h'
          rcases Prod.mk.injEq _ _ _ _ ▸ h' with ⟨hp, hs⟩
          subst hp
          subst hs
          have hdec := ih p2 s2 hcut
          rw [List.cons_append, ← hdec]

theorem cutAtBlankLine_append :
    ∀ (l pre post y : List Char), cutAtBlankLine l = some (pre, post) →
      cutAtBlankLine (l ++ y) = some (pre, post ++ y) := by
  intro l
  induction l with
  | nil => intro pre post y h; simp [cutAtBlankLine] at h
  | cons c1 rest ih =>
    intro pre post y h
    cases rest with
    | nil => simp [cutAtBlankLine] at h
    | cons c2 rest2 =>
      rw [cutAtBlankLine] at h
      rw [show (c1 :: c2 :: rest2) ++ y = c1 :: c2 :: (rest2 ++ y) by simp]
      rw [cutAtBlankLine]
      by_cases hc : c1 = '\n' ∧ c2 = '\n'
      · rw [if_pos hc] at h ⊢
        rcases Option.some.inj h with h'
        rcases Prod.mk.injEq _ _ _ _ ▸ h' with ⟨hp, hs⟩
        subst hp
        subst hs
        rfl
      · rw [if_neg hc] at h ⊢
        cases hcut : cutAtBlankLine (c2 :: rest2) with
        | none => rw [hcut] at h; cases h
        | some pp =>
          rcases pp with ⟨p2, s2⟩
          rw [hcut] at h
          rcases Option.some.inj h with h'
          rcases Prod.mk.injEq _ _ _ _ ▸ h' with ⟨hp, hs⟩
          subst hp
          subst hs
          have h2 := ih p2 s2 y hcut
          rw [show c2 :: (rest2 ++ y) = (c2 :: rest2) ++ y from rfl, h2]

theorem cutAtBlankLine_some_length {l pre post : List Char}
    (h : cutAtBlankLine l = some (pre, post)) :
    l.length = pre.length + 2 + post.length := by
  have hd := cutAtBlankLine_decomp l pre post h
  rw [hd]
  simp [List.length_append]
  omega

theorem drainBufferAux_fuel :
    ∀ (f1 f2 : Nat) (l : List Char), l.length ≤ f1 → l.length ≤ f2 →
      drainBufferAux f1 l = drainBufferAux f2 l := by
  intro f1
  induction f1 with
  | zero =>
    intro f2 l h1 _
    have hl : l = [] := List.length_eq_zero.mp (Nat.le_zero.mp h1)
    subst hl
    cases f2 with
    | zero => rfl
    | succ f2' => simp [drainBufferAux, cutAtBlankLine]
  | succ f1' ih =>
    intro f2 l h1 h2
    cases hcut : cutAtBlankLine l with
    | none =>
      cases f2 with
      | zero =>
        have hl : l = [] := List.length_eq_zero.mp (Nat.le_zero.mp h2)
        subst hl
        simp [drainBufferAux, cutAtBlankLine]
      | succ f2' => simp [drainBufferAux, hcut]
    | some pp =>
      rcases pp with ⟨pre, post⟩
      have hlen := cutAtBlankLine_some_length hcut
      cases f2 with
      | zero => omega
      | succ f2' =>
        have hrec : drainBufferAux f1' post = drainBufferAux f2' post :=
          ih f2' post (by omega) (by omega)
        simp [drainBufferAux, hcut, hrec]

theorem drainBuffer_cut_none {l : List Char} (h : cutAtBlankLine l = none) :
    drainBuffer l = ([], l) := by
  rw [drainBuffer]
  cases hl : l.length with
  | zero => rfl
  | succ n => simp [drainBufferAux, h]

theorem drainBuffer_cut_some {l pre post : List Char}
    (h : cutAtBlankLine l = some (pre, post)) :
    drainBuffer l = (pre :: (drainBuffer post).1, (drainBuffer post).2) := by
  have hlen := cutAtBlankLine_some_length h
  rw [drainBuffer]
  obtain ⟨n, hn⟩ : ∃ n, l.length = n + 1 := ⟨l.length - 1, by omega⟩
  rw [hn]
  have hrec : drainBufferAux n post = drainBufferAux post.length post :=
    drainBufferAux_fuel n post.length post (by omega) (Nat.le_refl _)
  simp [drainBufferAux, h, hrec, drainBuffer]

theorem drainBuffer_residue :
    ∀ (n : Nat) (l : List Char), l.length ≤ n →
      cutAtBlankLine (drainBuffer l).2 = none := by
  intro n
  induction n with
  | zero =>
    intro l h
    have hl : l = [] := List.length_eq_zero.mp (Nat.le_zero.mp h)
    subst hl
    rfl
  | succ n' ih =>
    intro l h
    cases hcut : cutAtBlankLine l with
    | none => rw [drainBuffer_cut_none hcut]; exact hcut
    | some pp =>
      rcases pp with ⟨pre, post⟩
      have hlen := cutAtBlankLine_some_length hcut
      rw [drainBuffer_cut_some hcut]
      exact ih post (by omega)

theorem drainBuffer_append :
    ∀ (n : Nat) (x : List Char), x.length ≤ n → ∀ (y : List Char),
      drainBuffer (x ++ y) =
        ((drainBuffer x).1 ++ (drainBuffer ((drainBuffer x).2 ++ y)).1,
         (drainBuffer ((drainBuffer x).2 ++ y)).2) := by
  intro n
  induction n with
  | zero =>
    intro x h y
    have hx : x = [] := List.length_eq_zero.mp (Nat.le_zero.mp h)
    subst hx
    have h0 : drainBuffer ([] : List Char) = ([], []) := rfl
    rw [h0]
    simp
  | succ n' ih =>
    intro x h y
    cases hcut : cutAtBlankLine x with
    | none =>
      rw [drainBuffer_cut_none hcut]
      simp
    | some pp =>
      rcases pp with ⟨pre, post⟩
      have hlen := cutAtBlankLine_some_length hcut
      have hxy : cutAtBlankLine (x ++ y) = some (pre, post ++ y) :=
        cutAtBlankLine_append x pre post y hcut
      rw [drainBuffer_cut_some hxy, drainBuffer_cut_some hcut]
      have hih := ih post (by omega) y
      rw [hih]
      simp

theorem runChunks_drain :
    ∀ (chunks : List (List Char)) (buf : List Char), cutAtBlankLine buf = none →
      runChunks buf chunks = drainBuffer (buf ++ chunks.flatten) := by
  intro chunks
  induction chunks with
  | nil =>
    intro buf hbuf
    rw [runChunks]
    simp [drainBuffer_cut_none hbuf]
  | cons chunk rest ih =>
    intro buf hbuf
    have hres : cutAtBlankLine (drainBuffer (buf ++ chunk)).2 = none :=
      drainBuffer_residue (buf ++ chunk).length (buf ++ chunk) (Nat.le_refl _)
    have hih := ih (drainBuffer (buf ++ chunk)).2 hres
    rw [runChunks]
    simp only [hih]
    have happ := drainBuffer_append (buf ++ chunk).length (buf ++ chunk)
      (Nat.le_refl _) rest.flatten
    rw [show buf ++ (chunk :: rest).flatten = (buf ++ chunk) ++ rest.flatten by simp,
      happ]

theorem replaceCrLf_no_cr : ∀ (l : List Char), '\r' ∉ l → replaceCrLf l = l := by
  intro l
  induction l with
  | nil => intro _; rfl
  | cons c rest ih =>
    intro h
    have hc : c ≠ '\r' := fun habs => h (habs ▸ List.mem_cons_self c rest)
    have hrest : '\r' ∉ rest := fun habs => h (List.mem_cons_of_mem c habs)
    cases rest with
    | nil => rfl
    | cons c2 rest2 =>
      rw [replaceCrLf, if_neg (fun habs => hc habs.1), ih hrest]

theorem replaceCr_no_cr (l : List Char) (h : '\r' ∉ l) : replaceCr l = l := by
  rw [replaceCr]
  have hcong : ∀ c ∈ l, (if c = '\r' then '\n' else c) = id c := by
    intro c hc
    have hne : c ≠ '\r' := fun habs => h (habs ▸ hc)
    simp [hne]
  rw [List.map_congr_left hcong, List.map_id]

theorem normalizeChunk_no_cr (l : List Char) (h : '\r' ∉ l) : normalizeChunk l = l := by
  rw [normalizeChunk, replaceCrLf_no_cr l h, replaceCr_no_cr l h]

/-- Counterexample to claim C8 as stated: a chunk boundary that splits a
carriage-return/line-feed pair changes the emitted payload sequence,
because each chunk is CR-normalized on its own before being buffered —
the lone trailing `\r` of the first chunk becomes `\n`, which together
with the `\n` opening the second chunk forms a spurious event boundary. -/
theorem c8_crlf_split_counterexample :
    emittedPayloads ["data: a\r".toList, "\ndata: b\n\n".toList] ≠
      emittedPayloads ["data: a\r".toList ++ "\ndata: b\n\n".toList] := by
  decide

/-- Claim C8 as amended: for chunk messages free of carriage returns (so
no chunk boundary can split a CR-LF pair), the re-framing step emits the
same payload sequence no matter how the byte stream is fragmented into
chunks: buffering, cutting at the first blank line, discarding comment
and empty segments, joining `data:` lines and dropping `[DONE]` depend
only on the concatenation of the chunks. -/
theorem c8_reframing_fragmentation_invariant (chunks : List (List Char))
    (hcr : ∀ chunk ∈ chunks, '\r' ∉ chunk) :
    emittedPayloads chunks = emittedPayloads [chunks.flatten] := by
  have hnorm1 : chunks.map normalizeChunk = chunks := by
    have hmap : chunks.map normalizeChunk = chunks.map id :=
      List.map_congr_left (fun c hc => normalizeChunk_no_cr c (hcr c hc))
    rw [hmap, List.map_id]
  have hflatcr : '\r' ∉ chunks.flatten := by
    intro habs
    rcases List.mem_flatten.mp habs with ⟨l, hl, hcl⟩
    exact hcr l hl hcl
  have hnorm2 : ([chunks.flatten].map normalizeChunk) = [chunks.flatten] := by
    simp [normalizeChunk_no_cr chunks.flatten hflatcr]
  have h1 : runChunks [] (chunks.map normalizeChunk) = drainBuffer chunks.flatten := by
    rw [hnorm1, runChunks_drain chunks [] rfl, List.nil_append]
  have h2 : runChunks [] ([chunks.flatten].map normalizeChunk)
      = drainBuffer chunks.flatten := by
    rw [hnorm2, runChunks_drain [chunks.flatten] [] rfl]
    simp
  rw [emittedPayloads, emittedPayloads, h1, h2]

/-- Witness for `c8_reframing_fragmentation_invariant` at the
specification's own example fragmentation (three chunks, the middle one
being just the blank line). -/
theorem c8_reframing_fragmentation_invariant_witness :
    (∀ chunk ∈ ["data: one\n".toList, "\n".toList, "data: two\n\n".toList],
        '\r' ∉ chunk) ∧
      emittedPayloads ["data: one\n".toList, "\n".toList, "data: two\n\n".toList] =
        emittedPayloads
          [(["data: one\n".toList, "\n".toList, "data: two\n\n".toList]).flatten] :=
  ⟨by decide,
   c8_reframing_fragmentation_invariant
     ["data: one\n".toList, "\n".toList, "data: two\n\n".toList] (by decide)⟩

end BuildServer
